import Mathlib

/-!
Shallow embedding of the bulk VM shutdown orchestrator
(src/tools/labs/vm_shutdown.py, module body).

The script lists the running VMs, sends a graceful shutdown request to each
one, polls the running set until it is empty or a timeout elapses, and, when
requested, force-terminates the survivors.  The hypervisor and the clock are
external: we model them as an environment supplying, for each machine, the
exit code of the shutdown and destroy subprocess calls and, for each poll
tick, the elapsed time measured at the top of the tick and the inventory
snapshot obtained after the sleep at the bottom of the tick.

The embedded run produces a trace of externally observable events (shutdown
calls, destroy calls, progress emissions, sleeps) together with a structured
result identifying which exit statement of the script terminated the run.
-/

/-- Command-line options recognized by the script (OptionParser section).
Times are modelled as rationals, standing in for Python floats. -/
structure Options where
  interval : ℚ
  timeout : ℚ
  kill : Bool
  verbose : Bool
  zenity : Bool
deriving DecidableEq

/-- The external world seen by one run of the script: the initial inventory
returned by the first list_running_vms call, the per-machine exit codes of
the virsh shutdown and virsh destroy subprocesses, the elapsed time
(time.time() - t0) measured at the top of poll tick k, and the inventory
snapshot returned by list_running_vms at the bottom of poll tick k. -/
structure Env where
  initialVMs : List String
  shutdownCode : String → Int
  destroyCode : String → Int
  elapsed : Nat → ℚ
  snapshot : Nat → List String

/-- Externally observable events of one run. -/
inductive Event where
  | shutdown (vm : String) (code : Int)
  | destroy (vm : String) (code : Int)
  | zenityTick (numVMs : Nat) (t : ℚ)
  | statusTick (t : ℚ) (numVMs : Nat)
  | sleep (dur : ℚ)
deriving DecidableEq

/-- Which exit statement of the script terminated the run.  The script exits
with code 3 after a failed dispatch, falls out of the while loop to exit 0
when the running set is empty, exits 1 on timeout without the kill option,
exits 3 when a destroy call failed, and breaks out of the loop to exit 0
when all destroy calls succeeded. -/
inductive RunResult where
  | dispatchFailed
  | allDown
  | timeoutNoForce
  | forceFailed
  | forcedAllOk
deriving DecidableEq

/-- The literal argument of the exit call reached for each result. -/
def exitOf : RunResult → Nat
  | .dispatchFailed => 3
  | .allDown => 0
  | .timeoutNoForce => 1
  | .forceFailed => 3
  | .forcedAllOk => 0

/-- The dispatch loop: for each running VM, call virsh shutdown and record
the event; a nonzero exit code sets the any_errors flag, which never aborts
the loop. -/
def shutdownPhase (env : Env) : List String → Bool → List Event × Bool
  | [], anyErrors => ([], anyErrors)
  | vm :: rest, anyErrors =>
    let ok := env.shutdownCode vm
    let next := shutdownPhase env rest (if ok != 0 then true else anyErrors)
    (Event.shutdown vm ok :: next.1, next.2)

/-- The force-termination loop: for each still-running VM, call virsh destroy
and record the event; a nonzero exit code sets the any_errors flag, which
never aborts the loop. -/
def destroyPhase (env : Env) : List String → Bool → List Event × Bool
  | [], anyErrors => ([], anyErrors)
  | vm :: rest, anyErrors =>
    let ok := env.destroyCode vm
    let next := destroyPhase env rest (if ok != 0 then true else anyErrors)
    (Event.destroy vm ok :: next.1, next.2)

/-- The progress output produced at the top of a poll tick with a non-empty
running set: the zenity branch prints a waiting line and a percentage on
every tick, and the status listing prints only when verbose is set or the
deadline has passed. -/
def tickEmissions (o : Options) (t : ℚ) (n : Nat) : List Event :=
  (if o.zenity then [Event.zenityTick n t] else [])
    ++ (if o.verbose || t > o.timeout then [Event.statusTick t n] else [])

/-- The while loop of the script, run with explicit fuel.  Each iteration:
if the running set is empty the loop exits (result allDown); otherwise the
tick measures elapsed time, emits progress output, and checks the deadline
before sleeping.  Past the deadline, the kill option selects between the
destroy loop (then break, exit 0, unless a destroy failed: exit 3) and
exit 1.  Under the deadline the loop sleeps for the interval and re-queries
the inventory.  none means the fuel ran out before the loop terminated. -/
def pollLoop (o : Options) (env : Env) :
    Nat → List String → Nat → Bool → Option (List Event × RunResult)
  | 0, vms, _, _ => if vms = [] then some ([], .allDown) else none
  | fuel + 1, vms, k, anyErrors =>
    if vms = [] then some ([], .allDown)
    else
      let n := vms.length
      let t := env.elapsed k
      let tickEvs := tickEmissions o t n
      if t > o.timeout then
        if o.kill then
          let forced := destroyPhase env vms anyErrors
          if forced.2 then some (tickEvs ++ forced.1, .forceFailed)
          else some (tickEvs ++ forced.1, .forcedAllOk)
        else some (tickEvs, .timeoutNoForce)
      else
        match pollLoop o env fuel (env.snapshot k) (k + 1) anyErrors with
        | none => none
        | some (evs, r) => some (tickEvs ++ Event.sleep o.interval :: evs, r)

/-- The whole module body: initial inventory, dispatch phase, early exit 3
when any dispatch failed, otherwise the poll loop (which inherits the
any_errors flag, false at that point). -/
def run (o : Options) (env : Env) (fuel : Nat) : Option (List Event × RunResult) :=
  let running := env.initialVMs
  let dispatched := shutdownPhase env running false
  if dispatched.2 then some (dispatched.1, .dispatchFailed)
  else
    match pollLoop o env fuel running 0 dispatched.2 with
    | none => none
    | some (evs, r) => some (dispatched.1 ++ evs, r)

/-- The running set as seen at the top of tick k: the initial inventory at
tick 0, and thereafter the snapshot taken at the bottom of the previous
tick. -/
def runningAt (env : Env) : Nat → List String
  | 0 => env.initialVMs
  | k + 1 => env.snapshot k

/-- Event classifiers over traces. -/
def isShutdownEv : Event → Bool
  | .shutdown _ _ => true
  | _ => false

def isDestroyEv : Event → Bool
  | .destroy _ _ => true
  | _ => false

def isSleepEv : Event → Bool
  | .sleep _ => true
  | _ => false

def isEmitEv : Event → Bool
  | .zenityTick _ _ => true
  | .statusTick _ _ => true
  | _ => false

def isShutdownFailure : Event → Bool
  | .shutdown _ c => c != 0
  | _ => false

def isDestroyFailure : Event → Bool
  | .destroy _ c => c != 0
  | _ => false

def hasShutdown (tr : List Event) : Bool := tr.any isShutdownEv

def hasDestroy (tr : List Event) : Bool := tr.any isDestroyEv

def hasSleep (tr : List Event) : Bool := tr.any isSleepEv

def hasEmit (tr : List Event) : Bool := tr.any isEmitEv

def anyShutdownFailed (tr : List Event) : Bool := tr.any isShutdownFailure

def anyDestroyFailed (tr : List Event) : Bool := tr.any isDestroyFailure

/-- Modelled from the spec (section 4.5 Outcome Resolver): the four exit
outcomes of a run. -/
inductive Outcome where
  | dispatchFailed
  | success
  | timeoutNoForce
  | forceFailed
deriving DecidableEq

/-- Modelled from the spec (section 6 exit-code table). -/
def specExitCode : Outcome → Nat
  | .dispatchFailed => 3
  | .success => 0
  | .timeoutNoForce => 1
  | .forceFailed => 3

/-- Modelled from the spec (section 4.5): the outcome resolver as a pure
function of the accumulated flags, checked in the stated precedence
order. -/
def resolveOutcome (anyDispatchFailed timedOut forceEnabled anyForceFailed : Bool) :
    Outcome :=
  if anyDispatchFailed then .dispatchFailed
  else if !timedOut then .success
  else if !forceEnabled then .timeoutNoForce
  else if anyForceFailed then .forceFailed
  else .success

/-- Whether the structured result records that the poll loop reached the
timeout branch. -/
def reachedTimeout : RunResult → Bool
  | .dispatchFailed => false
  | .allDown => false
  | .timeoutNoForce => true
  | .forceFailed => true
  | .forcedAllOk => true

/-- Default options of the script: interval 1, timeout 30, no kill, no
verbose, no zenity. -/
def oDefault : Options := ⟨1, 30, false, false, false⟩

/-- Options with a short timeout and the kill flag set. -/
def oKill : Options := ⟨1, 2, true, false, false⟩

/-- Options with a short timeout and the kill flag unset. -/
def oNoKill : Options := ⟨1, 2, false, false, false⟩

/-- One VM that shuts down after the first tick; all hypervisor calls
succeed. -/
def envQuick : Env := ⟨["a"], fun _ => 0, fun _ => 0, fun _ => 1, fun _ => []⟩

/-- Empty initial inventory. -/
def envEmpty : Env := ⟨[], fun _ => 0, fun _ => 0, fun _ => 0, fun _ => []⟩

/-- One VM whose graceful-shutdown dispatch fails with exit code 1. -/
def envBadDispatch : Env := ⟨["a"], fun _ => 1, fun _ => 0, fun _ => 1, fun _ => []⟩

/-- One VM that never stops; the deadline has already passed at tick 0. -/
def envStuck : Env := ⟨["a"], fun _ => 0, fun _ => 0, fun _ => 3, fun _ => ["a"]⟩

theorem shutdownPhase_eq (env : Env) (vms : List String) (b : Bool) :
    shutdownPhase env vms b
      = (vms.map fun vm => Event.shutdown vm (env.shutdownCode vm),
         b || vms.any fun vm => env.shutdownCode vm != 0) := by
  induction vms generalizing b with
  | nil => simp [shutdownPhase]
  | cons vm rest ih =>
    simp only [shutdownPhase, ih, List.map_cons, List.any_cons]
    cases h : (env.shutdownCode vm != 0) <;> simp [h, Bool.or_comm, Bool.or_assoc, Bool.or_left_comm]

theorem destroyPhase_eq (env : Env) (vms : List String) (b : Bool) :
    destroyPhase env vms b
      = (vms.map fun vm => Event.destroy vm (env.destroyCode vm),
         b || vms.any fun vm => env.destroyCode vm != 0) := by
  induction vms generalizing b with
  | nil => simp [destroyPhase]
  | cons vm rest ih =>
    simp only [destroyPhase, ih, List.map_cons, List.any_cons]
    cases h : (env.destroyCode vm != 0) <;> simp [h, Bool.or_comm, Bool.or_assoc, Bool.or_left_comm]

theorem shutdownMap_classify (c : String → Int) (vms : List String) (p : Event → Bool) :
    (vms.map fun vm => Event.shutdown vm (c vm)).any p
      = vms.any fun vm => p (Event.shutdown vm (c vm)) := by
  induction vms with
  | nil => rfl
  | cons vm rest ih => simp [ih]

theorem destroyMap_classify (c : String → Int) (vms : List String) (p : Event → Bool) :
    (vms.map fun vm => Event.destroy vm (c vm)).any p
      = vms.any fun vm => p (Event.destroy vm (c vm)) := by
  induction vms with
  | nil => rfl
  | cons vm rest ih => simp [ih]

theorem tickEmissions_no_destroy (o : Options) (t : ℚ) (n : Nat) :
    (tickEmissions o t n).any isDestroyEv = false := by
  unfold tickEmissions
  split <;> split <;> simp [isDestroyEv]

theorem tickEmissions_no_sleep (o : Options) (t : ℚ) (n : Nat) :
    (tickEmissions o t n).any isSleepEv = false := by
  unfold tickEmissions
  split <;> split <;> simp [isSleepEv]

theorem tickEmissions_no_shutdown (o : Options) (t : ℚ) (n : Nat) :
    (tickEmissions o t n).any isShutdownEv = false := by
  unfold tickEmissions
  split <;> split <;> simp [isShutdownEv]

theorem tickEmissions_any_false (o : Options) (t : ℚ) (n : Nat) (p : Event → Bool)
    (hz : ∀ m s, p (Event.zenityTick m s) = false)
    (hs : ∀ s m, p (Event.statusTick s m) = false) :
    (tickEmissions o t n).any p = false := by
  unfold tickEmissions
  split <;> split <;> simp [hz, hs]

theorem pollLoop_zero (o : Options) (env : Env) (vms : List String) (k : Nat) (b : Bool) :
    pollLoop o env 0 vms k b = if vms = [] then some ([], .allDown) else none := rfl

theorem pollLoop_succ (o : Options) (env : Env) (fuel : Nat) (vms : List String)
    (k : Nat) (b : Bool) :
    pollLoop o env (fuel + 1) vms k b
      = if vms = [] then some ([], .allDown)
        else if env.elapsed k > o.timeout then
          if o.kill then
            if (destroyPhase env vms b).2 then
              some (tickEmissions o (env.elapsed k) vms.length
                      ++ (destroyPhase env vms b).1, .forceFailed)
            else
              some (tickEmissions o (env.elapsed k) vms.length
                      ++ (destroyPhase env vms b).1, .forcedAllOk)
          else some (tickEmissions o (env.elapsed k) vms.length, .timeoutNoForce)
        else
          match pollLoop o env fuel (env.snapshot k) (k + 1) b with
          | none => none
          | some (evs, r) =>
            some (tickEmissions o (env.elapsed k) vms.length
                    ++ Event.sleep o.interval :: evs, r) := rfl

theorem pollLoop_inv (o : Options) (env : Env) :
    ∀ fuel vms k evs r, pollLoop o env fuel vms k false = some (evs, r) →
      hasShutdown evs = false
      ∧ r ≠ .dispatchFailed
      ∧ (r = .timeoutNoForce → o.kill = false ∧ hasDestroy evs = false)
      ∧ (r = .allDown → hasDestroy evs = false)
      ∧ (r = .forceFailed → o.kill = true ∧ anyDestroyFailed evs = true)
      ∧ (r = .forcedAllOk → o.kill = true ∧ anyDestroyFailed evs = false) := by
  intro fuel
  induction fuel with
  | zero =>
    intro vms k evs r h
    by_cases hv : vms = [] <;> simp [pollLoop_zero, hv] at h
    obtain ⟨he, hr⟩ := h
    subst he; subst hr
    simp [hasShutdown, hasDestroy, anyDestroyFailed]
  | succ fuel ih =>
    intro vms k evs r h
    rw [pollLoop_succ] at h
    by_cases hv : vms = []
    · rw [if_pos hv] at h
      injection h with h1
      injection h1 with he hr
      subst he; subst hr
      simp [hasShutdown, hasDestroy, anyDestroyFailed]
    · rw [if_neg hv] at h
      by_cases ht : env.elapsed k > o.timeout
      · rw [if_pos ht] at h
        by_cases hk : o.kill = true
        · rw [if_pos hk, destroyPhase_eq] at h
          simp only [Bool.false_or] at h
          by_cases hf : (vms.any fun vm => env.destroyCode vm != 0) = true
          · rw [if_pos hf] at h
            injection h with h1
            injection h1 with he hr
            subst he; subst hr
            refine ⟨?_, by simp, by simp, by simp, fun _ => ⟨hk, ?_⟩, by simp⟩
            · simp [hasShutdown, List.any_append,
                tickEmissions_any_false _ _ _ isShutdownEv (fun _ _ => rfl) (fun _ _ => rfl),
                shutdownMap_classify, destroyMap_classify, isShutdownEv]
            · simp [anyDestroyFailed, List.any_append,
                tickEmissions_any_false _ _ _ isDestroyFailure (fun _ _ => rfl) (fun _ _ => rfl),
                destroyMap_classify, isDestroyFailure, hf]
          · rw [if_neg hf] at h
            injection h with h1
            injection h1 with he hr
            subst he; subst hr
            refine ⟨?_, by simp, by simp, by simp, by simp, fun _ => ⟨hk, ?_⟩⟩
            · simp [hasShutdown, List.any_append,
                tickEmissions_any_false _ _ _ isShutdownEv (fun _ _ => rfl) (fun _ _ => rfl),
                destroyMap_classify, isShutdownEv]
            · simp only [Bool.not_eq_true] at hf
              simp [anyDestroyFailed, List.any_append,
                tickEmissions_any_false _ _ _ isDestroyFailure (fun _ _ => rfl) (fun _ _ => rfl),
                destroyMap_classify, isDestroyFailure, hf]
        · rw [if_neg hk] at h
          injection h with h1
          injection h1 with he hr
          subst he; subst hr
          simp only [Bool.not_eq_true] at hk
          refine ⟨?_, by simp, fun _ => ⟨hk, ?_⟩, by simp, by simp, by simp⟩
          · simp [hasShutdown,
              tickEmissions_any_false _ _ _ isShutdownEv (fun _ _ => rfl) (fun _ _ => rfl)]
          · simp [hasDestroy,
              tickEmissions_any_false _ _ _ isDestroyEv (fun _ _ => rfl) (fun _ _ => rfl)]
      · rw [if_neg ht] at h
        cases hrec : pollLoop o env fuel (env.snapshot k) (k + 1) false with
        | none => rw [hrec] at h; exact absurd h (by simp)
        | some p =>
          obtain ⟨evs0, r0⟩ := p
          rw [hrec] at h
          injection h with h1
          injection h1 with he hr
          subst he; subst hr
          obtain ⟨ihS, ihD, ihT, ihA, ihF, ihO⟩ := ih (env.snapshot k) (k + 1) evs0 r0 hrec
          have tickS := tickEmissions_any_false o (env.elapsed k) vms.length isShutdownEv
            (fun _ _ => rfl) (fun _ _ => rfl)
          have tickD := tickEmissions_any_false o (env.elapsed k) vms.length isDestroyEv
            (fun _ _ => rfl) (fun _ _ => rfl)
          have tickDF := tickEmissions_any_false o (env.elapsed k) vms.length isDestroyFailure
            (fun _ _ => rfl) (fun _ _ => rfl)
          refine ⟨?_, ihD, fun hx => ⟨(ihT hx).1, ?_⟩, fun hx => ?_,
            fun hx => ⟨(ihF hx).1, ?_⟩, fun hx => ⟨(ihO hx).1, ?_⟩⟩
          · simp [hasShutdown, List.any_append, tickS, isShutdownEv] at ihS ⊢
            exact ihS
          · have := (ihT hx).2
            simp [hasDestroy, List.any_append, tickD, isDestroyEv] at this ⊢
            exact this
          · have := ihA hx
            simp [hasDestroy, List.any_append, tickD, isDestroyEv] at this ⊢
            exact this
          · have := (ihF hx).2
            simp [anyDestroyFailed, List.any_append, tickDF, isDestroyFailure] at this ⊢
            exact this
          · have := (ihO hx).2
            simp [anyDestroyFailed, List.any_append, tickDF, isDestroyFailure] at this ⊢
            exact this

theorem run_eq (o : Options) (env : Env) (fuel : Nat) :
    run o env fuel
      = if (env.initialVMs.any fun vm => env.shutdownCode vm != 0) then
          some (env.initialVMs.map fun vm => Event.shutdown vm (env.shutdownCode vm),
                .dispatchFailed)
        else
          match pollLoop o env fuel env.initialVMs 0
                  (env.initialVMs.any fun vm => env.shutdownCode vm != 0) with
          | none => none
          | some (evs, r) =>
            some ((env.initialVMs.map fun vm => Event.shutdown vm (env.shutdownCode vm))
                    ++ evs, r) := by
  simp only [run, shutdownPhase_eq, Bool.false_or]

theorem no_shutdown_no_failure :
    ∀ tr : List Event, hasShutdown tr = false → anyShutdownFailed tr = false := by
  intro tr
  induction tr with
  | nil => intro _; rfl
  | cons e rest ih =>
    intro h
    simp only [hasShutdown, List.any_cons, Bool.or_eq_false_iff] at h
    simp only [anyShutdownFailed, List.any_cons, Bool.or_eq_false_iff]
    refine ⟨?_, ih h.2⟩
    cases e <;> simp_all [isShutdownEv, isShutdownFailure]

/-- C1: the process exit code follows the exit-code table of the spec as a
function of the accumulated phase flags, and no code other than 0, 1, 3 is
produced. -/
theorem exit_code_table (o : Options) (env : Env) (fuel : Nat) (tr : List Event)
    (r : RunResult) (h : run o env fuel = some (tr, r)) :
    exitOf r
      = specExitCode
          (resolveOutcome (anyShutdownFailed tr) (reachedTimeout r) o.kill
            (anyDestroyFailed tr))
    ∧ (exitOf r = 0 ∨ exitOf r = 1 ∨ exitOf r = 3) := by
  rw [run_eq] at h
  by_cases hd : (env.initialVMs.any fun vm => env.shutdownCode vm != 0) = true
  · rw [if_pos hd] at h
    injection h with h1
    injection h1 with he hr
    subst he; subst hr
    have hAS : anyShutdownFailed
        (env.initialVMs.map fun vm => Event.shutdown vm (env.shutdownCode vm)) = true := by
      simp only [anyShutdownFailed, shutdownMap_classify]
      simp [isShutdownFailure, hd]
    rw [hAS]
    exact ⟨rfl, Or.inr (Or.inr rfl)⟩
  · rw [if_neg hd] at h
    simp only [Bool.not_eq_true] at hd
    rw [hd] at h
    cases hrec : pollLoop o env fuel env.initialVMs 0 false with
    | none => rw [hrec] at h; exact absurd h (by simp)
    | some p =>
      obtain ⟨evs, r0⟩ := p
      rw [hrec] at h
      injection h with h1
      injection h1 with he hr
      subst he; subst hr
      obtain ⟨ihS, ihD, ihT, ihA, ihF, ihO⟩ :=
        pollLoop_inv o env fuel env.initialVMs 0 evs r0 hrec
      have hMS : anyShutdownFailed
          (env.initialVMs.map fun vm => Event.shutdown vm (env.shutdownCode vm)) = false := by
        simp only [anyShutdownFailed, shutdownMap_classify]
        simp [isShutdownFailure, hd]
      have hMD : anyDestroyFailed
          (env.initialVMs.map fun vm => Event.shutdown vm (env.shutdownCode vm)) = false := by
        simp only [anyDestroyFailed, shutdownMap_classify]
        simp [isDestroyFailure]
      have hAS : anyShutdownFailed
          ((env.initialVMs.map fun vm => Event.shutdown vm (env.shutdownCode vm)) ++ evs)
            = false := by
        simp only [anyShutdownFailed, List.any_append, Bool.or_eq_false_iff] at *
        exact ⟨hMS, no_shutdown_no_failure evs ihS⟩
      have hAD : anyDestroyFailed
          ((env.initialVMs.map fun vm => Event.shutdown vm (env.shutdownCode vm)) ++ evs)
            = anyDestroyFailed evs := by
        simp only [anyDestroyFailed, List.any_append] at *
        rw [hMD, Bool.false_or]
      rw [hAS, hAD]
      cases r0 with
      | dispatchFailed => exact absurd rfl ihD
      | allDown => simp [resolveOutcome, reachedTimeout, specExitCode, exitOf]
      | timeoutNoForce =>
        obtain ⟨hk, _⟩ := ihT rfl
        rw [hk]
        simp [resolveOutcome, reachedTimeout, specExitCode, exitOf]
      | forceFailed =>
        obtain ⟨hk, hdf⟩ := ihF rfl
        rw [hk, hdf]
        simp [resolveOutcome, reachedTimeout, specExitCode, exitOf]
      | forcedAllOk =>
        obtain ⟨hk, hdf⟩ := ihO rfl
        rw [hk, hdf]
        simp [resolveOutcome, reachedTimeout, specExitCode, exitOf]

theorem pollLoop_allDown_of_empty (o : Options) (env : Env) :
    ∀ d m fuel, d ≤ fuel →
      runningAt env (m + d) = [] →
      (∀ j, m ≤ j → j < m + d → env.elapsed j ≤ o.timeout) →
      ∃ evs, pollLoop o env fuel (runningAt env m) m false = some (evs, .allDown)
        ∧ hasDestroy evs = false := by
  intro d
  induction d with
  | zero =>
    intro m fuel _ hempty _
    simp only [Nat.add_zero] at hempty
    refine ⟨[], ?_, rfl⟩
    cases fuel <;> simp [pollLoop_zero, pollLoop_succ, hempty]
  | succ d ihd =>
    intro m fuel hle hempty hunder
    by_cases hv : runningAt env m = []
    · exact ⟨[], by cases fuel <;> simp [pollLoop_zero, pollLoop_succ, hv], rfl⟩
    · obtain ⟨f, rfl⟩ : ∃ f, fuel = f + 1 := ⟨fuel - 1, by omega⟩
      have ht : ¬ env.elapsed m > o.timeout :=
        not_lt.mpr (hunder m (le_refl m) (by omega))
      rw [pollLoop_succ, if_neg hv, if_neg ht]
      obtain ⟨evs, he, hd2⟩ := ihd (m + 1) f (by omega)
        (by rw [show m + 1 + d = m + (d + 1) by omega]; exact hempty)
        (fun j hj1 hj2 => hunder j (by omega) (by omega))
      rw [show runningAt env (m + 1) = env.snapshot m from rfl] at he
      rw [he]
      refine ⟨_, rfl, ?_⟩
      simp only [hasDestroy, List.any_append, List.any_cons,
        tickEmissions_any_false _ _ _ isDestroyEv (fun _ _ => rfl) (fun _ _ => rfl),
        Bool.false_or] at hd2 ⊢
      simp [isDestroyEv, hd2]

/-- C4: if the running set is empty at some poll tick reached before the
deadline — including an initially empty inventory — the run ends with
result allDown, exit code 0, and no force-terminate call is ever issued. -/
theorem empty_set_success (o : Options) (env : Env) (fuel k : Nat)
    (hk : k ≤ fuel)
    (hd : (env.initialVMs.any fun vm => env.shutdownCode vm != 0) = false)
    (hempty : runningAt env k = [])
    (hunder : ∀ j, j < k → env.elapsed j ≤ o.timeout) :
    ∃ tr, run o env fuel = some (tr, .allDown) ∧ exitOf .allDown = 0
      ∧ hasDestroy tr = false := by
  obtain ⟨evs, he, hdd⟩ := pollLoop_allDown_of_empty o env k 0 fuel hk
    (by simpa using hempty) (fun j _ hj => hunder j (by simpa using hj))
  simp only [runningAt] at he
  refine ⟨(env.initialVMs.map fun vm => Event.shutdown vm (env.shutdownCode vm)) ++ evs,
    ?_, rfl, ?_⟩
  · rw [run_eq, if_neg (by simp [hd]), hd, he]
  · simp only [hasDestroy, List.any_append, shutdownMap_classify, Bool.or_eq_false_iff]
    constructor
    · simp [isDestroyEv]
    · exact hdd

theorem pollLoop_reaches_timeout (o : Options) (env : Env) :
    ∀ d m fuel, d < fuel →
      (∀ j, m ≤ j → j < m + d → runningAt env j ≠ [] ∧ env.elapsed j ≤ o.timeout) →
      runningAt env (m + d) ≠ [] →
      env.elapsed (m + d) > o.timeout →
      ∃ pre,
        pollLoop o env fuel (runningAt env m) m false
          = some (pre
              ++ (if o.kill then
                    (runningAt env (m + d)).map
                      (fun vm => Event.destroy vm (env.destroyCode vm))
                  else []),
              if o.kill then
                (if ((runningAt env (m + d)).any fun vm => env.destroyCode vm != 0)
                 then .forceFailed else .forcedAllOk)
              else .timeoutNoForce)
        ∧ hasDestroy pre = false := by
  intro d
  induction d with
  | zero =>
    intro m fuel hlt hprev hne ht
    simp only [Nat.add_zero] at hne ht
    obtain ⟨f, rfl⟩ : ∃ f, fuel = f + 1 := ⟨fuel - 1, by omega⟩
    rw [pollLoop_succ, if_neg hne, if_pos ht]
    refine ⟨tickEmissions o (env.elapsed m) (runningAt env m).length, ?_,
      tickEmissions_any_false _ _ _ isDestroyEv (fun _ _ => rfl) (fun _ _ => rfl)⟩
    by_cases hk : o.kill = true
    · rw [if_pos hk, destroyPhase_eq]
      simp only [Bool.false_or, Nat.add_zero, if_pos hk]
      by_cases hf : ((runningAt env m).any fun vm => env.destroyCode vm != 0) = true
      · rw [if_pos hf, if_pos hf]
      · rw [if_neg hf, if_neg hf]
    · rw [if_neg hk, if_neg hk, if_neg hk]
      simp
  | succ d ihd =>
    intro m fuel hlt hprev hne ht
    obtain ⟨f, rfl⟩ : ∃ f, fuel = f + 1 := ⟨fuel - 1, by omega⟩
    obtain ⟨hne0, hun0⟩ := hprev m (le_refl m) (by omega)
    rw [pollLoop_succ, if_neg hne0, if_neg (not_lt.mpr hun0)]
    obtain ⟨pre, he, hpre⟩ := ihd (m + 1) f (by omega)
      (fun j hj1 hj2 => hprev j (by omega) (by omega))
      (by rw [show m + 1 + d = m + (d + 1) by omega]; exact hne)
      (by rw [show m + 1 + d = m + (d + 1) by omega]; exact ht)
    rw [show m + 1 + d = m + (d + 1) by omega] at he
    rw [show runningAt env (m + 1) = env.snapshot m from rfl] at he
    rw [he]
    refine ⟨tickEmissions o (env.elapsed m) (runningAt env m).length
      ++ Event.sleep o.interval :: pre, ?_, ?_⟩
    · simp [List.append_assoc]
    · simp only [hasDestroy, List.any_append, List.any_cons,
        tickEmissions_any_false _ _ _ isDestroyEv (fun _ _ => rfl) (fun _ _ => rfl),
        Bool.false_or] at hpre ⊢
      simp [isDestroyEv, hpre]

/-- C5: when the deadline passes on a tick with a non-empty running set and
forcing disabled, the run ends with result timeoutNoForce, exit code 1, and
no force-terminate call is issued anywhere in the run. -/
theorem timeout_without_force (o : Options) (env : Env) (fuel k : Nat)
    (hkill : o.kill = false) (hk : k < fuel)
    (hd : (env.initialVMs.any fun vm => env.shutdownCode vm != 0) = false)
    (hbefore : ∀ j, j < k → runningAt env j ≠ [] ∧ env.elapsed j ≤ o.timeout)
    (hne : runningAt env k ≠ []) (ht : env.elapsed k > o.timeout) :
    ∃ tr, run o env fuel = some (tr, .timeoutNoForce)
      ∧ exitOf .timeoutNoForce = 1 ∧ hasDestroy tr = false := by
  obtain ⟨pre, he, hpre⟩ := pollLoop_reaches_timeout o env k 0 fuel hk
    (fun j _ hj => hbefore j (by simpa using hj)) (by simpa using hne) (by simpa using ht)
  rw [hkill] at he
  simp only [Bool.false_eq_true, if_false, List.append_nil, runningAt] at he
  refine ⟨(env.initialVMs.map fun vm => Event.shutdown vm (env.shutdownCode vm)) ++ pre,
    ?_, rfl, ?_⟩
  · rw [run_eq, if_neg (by simp [hd]), hd, he]
  · simp only [hasDestroy, List.any_append, shutdownMap_classify, Bool.or_eq_false_iff]
    exact ⟨by simp [isDestroyEv], hpre⟩

/-- C6: when the deadline passes on a tick with a non-empty running set and
forcing enabled, the run issues exactly one force-terminate call per
still-running machine, aggregates their failures, and nothing follows the
force phase in the trace — no further polling occurs. -/
theorem timeout_force_exactly_once (o : Options) (env : Env) (fuel k : Nat)
    (hkill : o.kill = true) (hk : k < fuel)
    (hd : (env.initialVMs.any fun vm => env.shutdownCode vm != 0) = false)
    (hbefore : ∀ j, j < k → runningAt env j ≠ [] ∧ env.elapsed j ≤ o.timeout)
    (hne : runningAt env k ≠ []) (ht : env.elapsed k > o.timeout) :
    ∃ pre, run o env fuel
        = some (pre ++ (runningAt env k).map
              (fun vm => Event.destroy vm (env.destroyCode vm)),
            if ((runningAt env k).any fun vm => env.destroyCode vm != 0)
            then .forceFailed else .forcedAllOk)
      ∧ hasDestroy pre = false := by
  obtain ⟨pre, he, hpre⟩ := pollLoop_reaches_timeout o env k 0 fuel hk
    (fun j _ hj => hbefore j (by simpa using hj)) (by simpa using hne) (by simpa using ht)
  rw [hkill] at he
  simp only [eq_self_iff_true, if_true, Nat.zero_add] at he
  rw [show runningAt env 0 = env.initialVMs from rfl] at he
  refine ⟨(env.initialVMs.map fun vm => Event.shutdown vm (env.shutdownCode vm)) ++ pre,
    ?_, ?_⟩
  · rw [run_eq, if_neg (by simp [hd]), hd, he]
    simp [List.append_assoc]
  · simp only [hasDestroy, List.any_append, shutdownMap_classify, Bool.or_eq_false_iff]
    exact ⟨by simp [isDestroyEv], hpre⟩

/-- C2: the dispatch loop issues exactly one graceful-shutdown request to
every member of the running set, in order, never aborting early, and
aggregates failures into a single flag. -/
theorem dispatch_every_member_once (env : Env) (vms : List String) (b : Bool) :
    shutdownPhase env vms b
      = (vms.map fun vm => Event.shutdown vm (env.shutdownCode vm),
         b || vms.any fun vm => env.shutdownCode vm != 0) :=
  shutdownPhase_eq env vms b

/-- C3: when any graceful-shutdown dispatch fails, the run terminates with
result dispatchFailed whatever the subsequent machine state, its trace is
exactly the dispatch phase, and no poll tick, sleep, or force-terminate
call ever happens. -/
theorem dispatch_failure_aborts (o : Options) (env : Env) (fuel : Nat)
    (h : (env.initialVMs.any fun vm => env.shutdownCode vm != 0) = true) :
    run o env fuel
      = some (env.initialVMs.map fun vm => Event.shutdown vm (env.shutdownCode vm),
              .dispatchFailed)
    ∧ hasDestroy
        (env.initialVMs.map fun vm => Event.shutdown vm (env.shutdownCode vm)) = false
    ∧ hasSleep
        (env.initialVMs.map fun vm => Event.shutdown vm (env.shutdownCode vm)) = false
    ∧ hasEmit
        (env.initialVMs.map fun vm => Event.shutdown vm (env.shutdownCode vm)) = false := by
  refine ⟨?_, ?_, ?_, ?_⟩
  · rw [run_eq, if_pos h]
  · simp only [hasDestroy, shutdownMap_classify]
    simp [isDestroyEv]
  · simp only [hasSleep, shutdownMap_classify]
    simp [isSleepEv]
  · simp only [hasEmit, shutdownMap_classify]
    simp [isEmitEv]

/-- C7: on a tick with a non-empty running set, the deadline is evaluated
before sleeping: past the deadline the remaining trace holds no sleep at
all, and under the deadline the loop sleeps for the interval and continues
with the next snapshot, the elapsed value of each tick being read directly
from the clock environment. -/
theorem deadline_checked_before_sleep (o : Options) (env : Env) (fuel : Nat)
    (vms : List String) (k : Nat) (hne : vms ≠ []) :
    (env.elapsed k > o.timeout →
      ∀ evs r, pollLoop o env (fuel + 1) vms k false = some (evs, r) →
        hasSleep evs = false)
    ∧ (env.elapsed k ≤ o.timeout →
      pollLoop o env (fuel + 1) vms k false
        = (pollLoop o env fuel (env.snapshot k) (k + 1) false).map
            (fun p => (tickEmissions o (env.elapsed k) vms.length
                         ++ Event.sleep o.interval :: p.1, p.2))) := by
  constructor
  · intro ht evs r h
    rw [pollLoop_succ, if_neg hne, if_pos ht] at h
    have tickS := tickEmissions_any_false o (env.elapsed k) vms.length isSleepEv
      (fun _ _ => rfl) (fun _ _ => rfl)
    by_cases hk : o.kill = true
    · rw [if_pos hk, destroyPhase_eq] at h
      simp only [Bool.false_or] at h
      by_cases hf : (vms.any fun vm => env.destroyCode vm != 0) = true
      · rw [if_pos hf] at h
        injection h with h1
        injection h1 with he hr
        subst he
        simp [hasSleep, List.any_append, tickS, destroyMap_classify, isSleepEv]
      · rw [if_neg hf] at h
        injection h with h1
        injection h1 with he hr
        subst he
        simp [hasSleep, List.any_append, tickS, destroyMap_classify, isSleepEv]
    · rw [if_neg hk] at h
      injection h with h1
      injection h1 with he hr
      subst he
      simp [hasSleep, tickS]
  · intro ht
    rw [pollLoop_succ, if_neg hne, if_neg (not_lt.mpr ht)]
    cases pollLoop o env fuel (env.snapshot k) (k + 1) false with
    | none => rfl
    | some p => obtain ⟨evs, r⟩ := p; rfl

/-- C8 counterexample: with verbose and zenity both disabled, a run whose
poll loop executes a tick under the deadline emits nothing on that tick,
so emission does not happen on every poll tick. -/
theorem tick_emission_cex :
    run oDefault envQuick 2
      = some ([Event.shutdown "a" 0, Event.sleep 1], .allDown)
    ∧ hasSleep [Event.shutdown "a" 0, Event.sleep 1] = true
    ∧ hasEmit [Event.shutdown "a" 0, Event.sleep 1] = false := by
  refine ⟨by decide, by decide, by decide⟩

/-- C8 amended: on every poll tick with a non-empty running set the trace
opens with the tick emissions, and those are non-empty exactly when zenity
or verbose is enabled or the deadline has passed. -/
theorem tick_emission_amended (o : Options) (env : Env) (fuel : Nat)
    (vms : List String) (k : Nat) (evs : List Event) (r : RunResult)
    (hne : vms ≠ [])
    (h : pollLoop o env (fuel + 1) vms k false = some (evs, r)) :
    (∃ rest, evs = tickEmissions o (env.elapsed k) vms.length ++ rest)
    ∧ (tickEmissions o (env.elapsed k) vms.length ≠ []
        ↔ (o.zenity = true ∨ o.verbose = true ∨ env.elapsed k > o.timeout)) := by
  constructor
  · rw [pollLoop_succ, if_neg hne] at h
    by_cases ht : env.elapsed k > o.timeout
    · rw [if_pos ht] at h
      by_cases hk : o.kill = true
      · rw [if_pos hk] at h
        by_cases hf : (destroyPhase env vms false).2 = true
        · rw [if_pos hf] at h
          injection h with h1
          injection h1 with he hr
          exact ⟨_, he.symm⟩
        · rw [if_neg hf] at h
          injection h with h1
          injection h1 with he hr
          exact ⟨_, he.symm⟩
      · rw [if_neg hk] at h
        injection h with h1
        injection h1 with he hr
        exact ⟨[], by rw [← he, List.append_nil]⟩
    · rw [if_neg ht] at h
      cases hrec : pollLoop o env fuel (env.snapshot k) (k + 1) false with
      | none => rw [hrec] at h; exact absurd h (by simp)
      | some p =>
        rw [hrec] at h
        obtain ⟨evs0, r0⟩ := p
        injection h with h1
        injection h1 with he hr
        exact ⟨_, he.symm⟩
  · unfold tickEmissions
    by_cases hz : o.zenity = true <;> by_cases hv : o.verbose = true <;>
      by_cases ht : env.elapsed k > o.timeout <;>
      simp [hz, hv, ht]

/-- C10: every graceful-shutdown request of a run happens in the initial
dispatch phase, one per machine of the initial inventory snapshot; the rest
of the trace contains no shutdown request at all. -/
theorem shutdown_only_in_dispatch (o : Options) (env : Env) (fuel : Nat)
    (tr : List Event) (r : RunResult) (h : run o env fuel = some (tr, r)) :
    ∃ rest,
      tr = (env.initialVMs.map fun vm => Event.shutdown vm (env.shutdownCode vm)) ++ rest
      ∧ hasShutdown rest = false := by
  rw [run_eq] at h
  by_cases hd : (env.initialVMs.any fun vm => env.shutdownCode vm != 0) = true
  · rw [if_pos hd] at h
    injection h with h1
    injection h1 with he hr
    exact ⟨[], by rw [← he, List.append_nil], rfl⟩
  · rw [if_neg hd] at h
    simp only [Bool.not_eq_true] at hd
    rw [hd] at h
    cases hrec : pollLoop o env fuel env.initialVMs 0 false with
    | none => rw [hrec] at h; exact absurd h (by simp)
    | some p =>
      obtain ⟨evs, r0⟩ := p
      rw [hrec] at h
      injection h with h1
      injection h1 with he hr
      exact ⟨evs, he.symm,
        (pollLoop_inv o env fuel env.initialVMs 0 evs r0 hrec).1⟩

theorem pollLoop_obs_flags (o : Options) (env : Env) (v z : Bool) :
    ∀ fuel vms k b,
      (pollLoop { o with verbose := v, zenity := z } env fuel vms k b).map
          (fun p => p.2)
        = (pollLoop o env fuel vms k b).map (fun p => p.2) := by
  intro fuel
  induction fuel with
  | zero =>
    intro vms k b
    by_cases hv : vms = [] <;> simp [pollLoop_zero, hv]
  | succ fuel ih =>
    intro vms k b
    rw [pollLoop_succ, pollLoop_succ]
    by_cases hv : vms = []
    · simp [hv]
    · rw [if_neg hv, if_neg hv]
      by_cases ht : env.elapsed k > o.timeout
      · have ht2 : env.elapsed k > ({ o with verbose := v, zenity := z } : Options).timeout :=
          ht
        rw [if_pos ht, if_pos ht2]
        by_cases hk : o.kill = true
        · have hk2 : ({ o with verbose := v, zenity := z } : Options).kill = true := hk
          rw [if_pos hk, if_pos hk2]
          by_cases hf : (destroyPhase env vms b).2 = true
          · rw [if_pos hf, if_pos hf]; rfl
          · rw [if_neg hf, if_neg hf]; rfl
        · have hk2 : ¬ ({ o with verbose := v, zenity := z } : Options).kill = true := hk
          rw [if_neg hk, if_neg hk2]
          rfl
      · have ht2 : ¬ env.elapsed k > ({ o with verbose := v, zenity := z } : Options).timeout :=
          ht
        rw [if_neg ht, if_neg ht2]
        have ihh := ih (env.snapshot k) (k + 1) b
        cases h1 : pollLoop { o with verbose := v, zenity := z } env fuel
            (env.snapshot k) (k + 1) b with
        | none =>
          cases h2 : pollLoop o env fuel (env.snapshot k) (k + 1) b with
          | none => rfl
          | some p => rw [h1, h2] at ihh; exact absurd ihh (by simp)
        | some p =>
          cases h2 : pollLoop o env fuel (env.snapshot k) (k + 1) b with
          | none => rw [h1, h2] at ihh; exact absurd ihh (by simp)
          | some q =>
            rw [h1, h2] at ihh
            obtain ⟨e1, r1⟩ := p
            obtain ⟨e2, r2⟩ := q
            simp only [Option.map_some'] at ihh
            injection ihh with ihh2
            simp [ihh2]

/-- C9: the verbose and zenity flags never affect control flow: two runs
differing only in those flags, against the same environment, resolve to the
same structured result and the same exit code. -/
theorem observability_never_affects_outcome (o : Options) (env : Env) (fuel : Nat)
    (v z : Bool) :
    (run { o with verbose := v, zenity := z } env fuel).map
        (fun p => (p.2, exitOf p.2))
      = (run o env fuel).map (fun p => (p.2, exitOf p.2)) := by
  rw [run_eq, run_eq]
  by_cases hd : (env.initialVMs.any fun vm => env.shutdownCode vm != 0) = true
  · rw [if_pos hd, if_pos hd]
  · rw [if_neg hd, if_neg hd]
    have ihh := pollLoop_obs_flags o env v z fuel env.initialVMs 0
      (env.initialVMs.any fun vm => env.shutdownCode vm != 0)
    cases h1 : pollLoop { o with verbose := v, zenity := z } env fuel env.initialVMs 0
        (env.initialVMs.any fun vm => env.shutdownCode vm != 0) with
    | none =>
      cases h2 : pollLoop o env fuel env.initialVMs 0
          (env.initialVMs.any fun vm => env.shutdownCode vm != 0) with
      | none => rfl
      | some p => rw [h1, h2] at ihh; exact absurd ihh (by simp)
    | some p =>
      cases h2 : pollLoop o env fuel env.initialVMs 0
          (env.initialVMs.any fun vm => env.shutdownCode vm != 0) with
      | none => rw [h1, h2] at ihh; exact absurd ihh (by simp)
      | some q =>
        rw [h1, h2] at ihh
        obtain ⟨e1, r1⟩ := p
        obtain ⟨e2, r2⟩ := q
        simp only [Option.map_some'] at ihh
        injection ihh with ihh2
        simp [ihh2]

theorem exit_code_table_witness :
    exitOf RunResult.allDown
      = specExitCode
          (resolveOutcome (anyShutdownFailed [Event.shutdown "a" 0, Event.sleep 1])
            (reachedTimeout RunResult.allDown) oDefault.kill
            (anyDestroyFailed [Event.shutdown "a" 0, Event.sleep 1]))
    ∧ (exitOf RunResult.allDown = 0 ∨ exitOf RunResult.allDown = 1
        ∨ exitOf RunResult.allDown = 3) :=
  exit_code_table oDefault envQuick 2 [Event.shutdown "a" 0, Event.sleep 1]
    RunResult.allDown (by decide)

theorem dispatch_failure_aborts_witness :
    run oDefault envBadDispatch 0
      = some (envBadDispatch.initialVMs.map
            fun vm => Event.shutdown vm (envBadDispatch.shutdownCode vm),
          RunResult.dispatchFailed)
    ∧ hasDestroy (envBadDispatch.initialVMs.map
        fun vm => Event.shutdown vm (envBadDispatch.shutdownCode vm)) = false
    ∧ hasSleep (envBadDispatch.initialVMs.map
        fun vm => Event.shutdown vm (envBadDispatch.shutdownCode vm)) = false
    ∧ hasEmit (envBadDispatch.initialVMs.map
        fun vm => Event.shutdown vm (envBadDispatch.shutdownCode vm)) = false :=
  dispatch_failure_aborts oDefault envBadDispatch 0 (by decide)

theorem empty_set_success_witness :
    ∃ tr, run oDefault envEmpty 0 = some (tr, RunResult.allDown)
      ∧ exitOf RunResult.allDown = 0 ∧ hasDestroy tr = false :=
  empty_set_success oDefault envEmpty 0 0 (by decide) (by decide) (by decide)
    (fun j hj => absurd hj (Nat.not_lt_zero j))

theorem timeout_without_force_witness :
    ∃ tr, run oNoKill envStuck 1 = some (tr, RunResult.timeoutNoForce)
      ∧ exitOf RunResult.timeoutNoForce = 1 ∧ hasDestroy tr = false :=
  timeout_without_force oNoKill envStuck 1 0 (by decide) (by decide) (by decide)
    (fun j hj => absurd hj (Nat.not_lt_zero j)) (by decide) (by decide)

theorem timeout_force_exactly_once_witness :
    ∃ pre, run oKill envStuck 1
        = some (pre ++ (runningAt envStuck 0).map
              (fun vm => Event.destroy vm (envStuck.destroyCode vm)),
            if ((runningAt envStuck 0).any fun vm => envStuck.destroyCode vm != 0)
            then RunResult.forceFailed else RunResult.forcedAllOk)
      ∧ hasDestroy pre = false :=
  timeout_force_exactly_once oKill envStuck 1 0 (by decide) (by decide) (by decide)
    (fun j hj => absurd hj (Nat.not_lt_zero j)) (by decide) (by decide)

theorem deadline_checked_before_sleep_witness :
    hasSleep [Event.statusTick 3 1, Event.destroy "a" 0] = false
    ∧ pollLoop oDefault envQuick 1 ["a"] 0 false
        = (pollLoop oDefault envQuick 0 (envQuick.snapshot 0) 1 false).map
            (fun p => (tickEmissions oDefault (envQuick.elapsed 0) (["a"] : List String).length
                         ++ Event.sleep oDefault.interval :: p.1, p.2)) :=
  ⟨(deadline_checked_before_sleep oKill envStuck 0 ["a"] 0 (by decide)).1 (by decide)
      [Event.statusTick 3 1, Event.destroy "a" 0] RunResult.forcedAllOk (by decide),
   (deadline_checked_before_sleep oDefault envQuick 0 ["a"] 0 (by decide)).2 (by decide)⟩

theorem tick_emission_amended_witness :
    (∃ rest, [Event.statusTick 3 1, Event.destroy "a" 0]
        = tickEmissions oKill (envStuck.elapsed 0) (["a"] : List String).length ++ rest)
    ∧ (tickEmissions oKill (envStuck.elapsed 0) (["a"] : List String).length ≠ []
        ↔ (oKill.zenity = true ∨ oKill.verbose = true
            ∨ envStuck.elapsed 0 > oKill.timeout)) :=
  tick_emission_amended oKill envStuck 0 ["a"] 0
    [Event.statusTick 3 1, Event.destroy "a" 0] RunResult.forcedAllOk (by decide) (by decide)

theorem shutdown_only_in_dispatch_witness :
    ∃ rest,
      [Event.shutdown "a" 0, Event.sleep 1]
        = (envQuick.initialVMs.map
            fun vm => Event.shutdown vm (envQuick.shutdownCode vm)) ++ rest
      ∧ hasShutdown rest = false :=
  shutdown_only_in_dispatch oDefault envQuick 2 [Event.shutdown "a" 0, Event.sleep 1]
    RunResult.allDown (by decide)
